import Mathlib

/-
  Verification of the raur package helper (src/src/main.rs).

  The program is embedded shallowly: every handler becomes a pure Lean
  function over explicit oracles that supply what the outside world would
  answer (subprocess stdout and exit statuses, the HTTP search response,
  stdin lines, filesystem existence).  Each handler returns the ordered
  trace of externally observable effects it performs together with an
  Except value mirroring the Rust Result that the handler returns.
-/

namespace Raur

/-- Externally observable effects of a single command invocation, in order:
subprocess spawns via output and status, the HTTP GET, terminal prints,
the confirmation prompt and stdin read, filesystem operations, and the
rows of the rendered search table. -/
inductive Event where
  | runOutput (cmd : String) (args : List String)
  | runStatus (cmd : String) (args : List String) (cwd : Option String)
  | httpGet (url : String)
  | printLine (s : String)
  | eprintLine (s : String)
  | promptAsk (pkg : String)
  | stdinRead
  | createDir (path : String)
  | removeDir (path : String)
  | tableHeader
  | tableRow (cells : List String)
  | tablePrint
  deriving DecidableEq, Repr

/-- Writer-over-exception: the trace of effects performed so far, paired
with the Result the Rust function returns (the error case models a
propagated I/O error through the question-mark operator). -/
structure Eff (α : Type) where
  trace : List Event
  result : Except String α
  deriving Repr

namespace Eff

def pureE (a : α) : Eff α := ⟨[], Except.ok a⟩

def bind (x : Eff α) (f : α → Eff β) : Eff β :=
  match x.result with
  | Except.error e => ⟨x.trace, Except.error e⟩
  | Except.ok a => ⟨x.trace ++ (f a).trace, (f a).result⟩

end Eff

instance : Monad Eff where
  pure := Eff.pureE
  bind := Eff.bind

@[simp] theorem bind_eq_bind (x : Eff α) (f : α → Eff β) : x >>= f = Eff.bind x f := rfl

@[simp] theorem pure_eq_pure (a : α) : (pure a : Eff α) = ⟨[], Except.ok a⟩ := rfl

@[simp] theorem bind_ok (t : List Event) (a : α) (f : α → Eff β) :
    Eff.bind ⟨t, Except.ok a⟩ f = ⟨t ++ (f a).trace, (f a).result⟩ := rfl

@[simp] theorem bind_error (t : List Event) (e : String) (f : α → Eff β) :
    Eff.bind ⟨t, Except.error e⟩ f = ⟨t, Except.error e⟩ := rfl

/-- Perform one external action: record its event and return what the
world answered (an ok value, or a propagated I/O error). -/
def act (e : Event) (r : Except String α) : Eff α := ⟨[e], r⟩

/-- Print-like effects always succeed. -/
def emit (e : Event) : Eff Unit := ⟨[e], Except.ok ()⟩

@[simp] theorem act_trace (e : Event) (r : Except String α) : (act e r).trace = [e] := rfl

@[simp] theorem act_result (e : Event) (r : Except String α) : (act e r).result = r := rfl

@[simp] theorem emit_def (e : Event) : emit e = ⟨[e], Except.ok ()⟩ := rfl

/-- An Except value carries an ok payload. -/
def okE (x : Except String α) : Prop := ∃ a, x = Except.ok a

/- ======================  Remove / Purge  ====================== -/

/-- Model of the Rust expression input.trim().to_lowercase(): drop
whitespace from both ends, then lowercase every character.  (The Rust
versions are Unicode-aware; this model is exact on the ASCII range, which
is all the confirmation gate compares against.) -/
def trimLower (s : String) : String :=
  String.mk (((s.data.dropWhile Char.isWhitespace).reverse.dropWhile Char.isWhitespace).reverse.map Char.toLower)

/-- World answers consumed by one remove_package call: the line read from
stdin (read_line can fail with an I/O error) and the exit status of the
sudo pacman removal subprocess. -/
structure RemoveOracle where
  input : Except String String
  status : Except String Bool
  deriving Repr

/-- Embedding of remove_package from src/src/main.rs: prompt, flush, read a
line from stdin; if the trimmed lowercased answer is not y, print Aborted
and return Ok; otherwise run sudo pacman -Rs or -Rns (with purge)
--noconfirm and report the status. -/
def remove_package (pkgname : String) (purge : Bool) (o : RemoveOracle) : Eff Unit := do
  emit (Event.promptAsk pkgname)
  let input ← act Event.stdinRead o.input
  if trimLower input ≠ "y" then
    emit (Event.printLine "Aborted")
  else
    let args := if purge then ["-Rns", pkgname, "--noconfirm"] else ["-Rs", pkgname, "--noconfirm"]
    let ok ← act (Event.runStatus "sudo" ("pacman" :: args) none) o.status
    if ok then emit (Event.printLine ("Removed " ++ pkgname))
    else emit (Event.printLine ("Failed to remove " ++ pkgname))

/-- True of the event that spawns the pacman removal subprocess. -/
def isRemovalCall : Event → Bool
  | Event.runStatus c args _ =>
      c == "sudo" && args.headD "" == "pacman" && (args.getD 1 "" == "-Rs" || args.getD 1 "" == "-Rns")
  | _ => false

/- ======================  Search: Pacman + AUR  ====================== -/

/-- One AUR search result entry, as deserialized from the JSON response:
Name and Version are required fields, Description is optional. -/
structure AurPackage where
  name : String
  version : String
  description : Option String
  deriving DecidableEq, Repr

/-- The AUR JSON envelope: a resultcount (an i32 in the source, modelled as
Int) and the array of results.  The two fields are independent pieces of
data; nothing ties resultcount to the array length. -/
structure AurResponse where
  resultcount : Int
  results : List AurPackage
  deriving DecidableEq, Repr

/-- World answers consumed by one search_packages call: the stdout of the
pacman -Ss subprocess and the parsed AUR HTTP response (either can be a
propagated error: spawn failure, network or JSON-parse failure). -/
structure SearchOracle where
  pacmanOut : Except String String
  aurResp : Except String AurResponse
  deriving Repr

/-- Model of Rust str::lines, used for the first-10-lines print of the
pacman search output. -/
def linesOf (s : String) : List String := s.splitOn "\x0a"

/-- Embedding of search_packages from src/src/main.rs: print the search
banner; unless aur_only, run pacman -Ss and print up to 10 output lines
(or a not-found warning on empty stdout); unless pacman_only, GET the AUR
rpc endpoint and, when resultcount is positive, render a table with a
header row plus one data row per result, capped at 10, the missing
descriptions replaced by a fixed placeholder; otherwise print a no-results
message. -/
def search_packages (query : String) (pacman_only aur_only : Bool) (o : SearchOracle) :
    Eff Unit := do
  emit (Event.printLine ("Searching for " ++ query))
  if aur_only = false then
    let out ← act (Event.runOutput "pacman" ["-Ss", query]) o.pacmanOut
    if out ≠ "" then
      emit (Event.printLine "Found in official repos:")
      ((linesOf out).take 10).forM (fun line => emit (Event.printLine line))
    else
      emit (Event.printLine "Not found in official repos")
  if pacman_only = false then
    let url := "https://aur.archlinux.org/rpc/?v=5&type=search&arg=" ++ query
    let resp ← act (Event.httpGet url) o.aurResp
    if resp.resultcount > 0 then
      emit (Event.printLine ("Found " ++ toString resp.resultcount ++ " packages in AUR:"))
      emit Event.tableHeader
      (resp.results.take 10).forM (fun pkg =>
        emit (Event.tableRow [pkg.name, pkg.version, pkg.description.getD "No description"]))
      emit Event.tablePrint
    else
      emit (Event.printLine "No packages found in AUR")

/- ======================  Install: Pacman first, then AUR  ====================== -/

/-- Cache root derived from the HOME environment variable, /tmp when HOME
is unset: HOME/.cache/raur. -/
def cacheDirOf (home : Option String) : String := home.getD "/tmp" ++ "/.cache/raur"

/-- Per-package build workspace: cache root plus the package name. -/
def tempDirOf (home : Option String) (pkgname : String) : String :=
  cacheDirOf home ++ "/" ++ pkgname

/-- World answers consumed by one install_package call: stdout of the
pacman -Ss presence check, the status of the official install, the HOME
variable, whether the cache root and the package workspace already exist
on disk, the results of the directory create and recursive delete, and
the statuses of the git clone and makepkg subprocesses. -/
structure InstallOracle where
  searchOut : Except String String
  pacmanStatus : Except String Bool
  home : Option String
  cacheDirExists : Bool
  mkCacheDir : Except String Unit
  tempDirExists : Bool
  rmTempDir : Except String Unit
  cloneStatus : Except String Bool
  buildStatus : Except String Bool
  deriving Repr

/-- Embedding of install_package from src/src/main.rs: check official-repo
presence via pacman -Ss; on non-empty stdout install through sudo pacman
-S --noconfirm and return (the Rust early return is the then-branch).
Otherwise fall back to the AUR: create the cache root if missing, delete
a pre-existing workspace, git clone the recipe (on failure print an error
and return Ok), then run makepkg in the workspace with -sci or -si
--noconfirm depending on cascade and report the status.  The progress
spinner is terminal-only animation with no external effect and is not
modelled. -/
def install_package (pkgname : String) (cascade : Bool) (o : InstallOracle) : Eff Unit := do
  let searchStdout ← act (Event.runOutput "pacman" ["-Ss", pkgname]) o.searchOut
  if searchStdout ≠ "" then
    emit (Event.printLine ("Installing " ++ pkgname ++ " from official repos"))
    let ok ← act (Event.runStatus "sudo" ["pacman", "-S", pkgname, "--noconfirm"] none)
      o.pacmanStatus
    if ok then emit (Event.printLine ("Installed " ++ pkgname ++ " from official repos"))
    else emit (Event.printLine ("Failed to install " ++ pkgname ++ " from official repos"))
  else
    emit (Event.printLine (pkgname ++ " not found in official repos, building from AUR"))
    let cache_dir := cacheDirOf o.home
    if o.cacheDirExists = false then
      act (Event.createDir cache_dir) o.mkCacheDir
    let temp_dir := tempDirOf o.home pkgname
    if o.tempDirExists then
      act (Event.removeDir temp_dir) o.rmTempDir
    let cloneOk ← act (Event.runStatus "git"
      ["clone", "https://aur.archlinux.org/" ++ pkgname ++ ".git", temp_dir] none) o.cloneStatus
    if cloneOk = false then
      emit (Event.eprintLine "Git clone failed")
    else
      let makepkg_args := if cascade then ["-sci", "--noconfirm"] else ["-si", "--noconfirm"]
      let buildOk ← act (Event.runStatus "makepkg" makepkg_args (some temp_dir)) o.buildStatus
      if buildOk then emit (Event.printLine ("Installed " ++ pkgname ++ " from AUR"))
      else emit (Event.printLine ("Failed to install " ++ pkgname ++ " from AUR"))

/- ======================  Update / Sync and Upgrade  ====================== -/

/-- Embedding of update_database from src/src/main.rs: sudo pacman -Syy
when full is set, -Sy otherwise, then report the status. -/
def update_database (full : Bool) (st : Except String Bool) : Eff Unit := do
  let pacman_args := if full then ["-Syy"] else ["-Sy"]
  let ok ← act (Event.runStatus "sudo" ("pacman" :: pacman_args) none) st
  if ok then emit (Event.printLine "Database synced successfully")
  else emit (Event.printLine "Database sync failed")

/-- Embedding of upgrade_system from src/src/main.rs: update_database with
the same full flag, then one sudo pacman -Syu --noconfirm invocation and
its status report. -/
def upgrade_system (full : Bool) (st1 st2 : Except String Bool) : Eff Unit := do
  update_database full st1
  let ok ← act (Event.runStatus "sudo" ["pacman", "-Syu", "--noconfirm"] none) st2
  if ok then emit (Event.printLine "System upgraded successfully")
  else emit (Event.printLine "Upgrade failed")

/- ======================  main: dispatch  ====================== -/

/-- The parsed CLI subcommand, mirroring the clap-derived Commands enum.
Both search filter flags are independent booleans; clap imposes no
mutual-exclusion constraint on them. -/
inductive Commands where
  | search (query : String) (pacman_only : Bool) (aur_only : Bool)
  | install (packages : List String) (cascade : Bool)
  | remove (packages : List String) (purge : Bool)
  | update (full : Bool)
  | upgrade (full : Bool)
  deriving DecidableEq, Repr

/-- The install branch of main: run install_package on each requested name
in order, the i-th call consuming the i-th oracle; the question-mark
operator makes a propagated error abort the remaining iterations. -/
def runInstall : List String → Bool → (Nat → InstallOracle) → Eff Unit
  | [], _, _ => pure ()
  | p :: ps, cascade, os =>
      Eff.bind (install_package p cascade (os 0)) (fun _ => runInstall ps cascade (fun i => os (i + 1)))

/-- The remove branch of main: remove_package on each name in order, the
i-th call consuming the i-th oracle (its stdin line and subprocess
status). -/
def runRemove : List String → Bool → (Nat → RemoveOracle) → Eff Unit
  | [], _, _ => pure ()
  | p :: ps, purge, os =>
      Eff.bind (remove_package p purge (os 0)) (fun _ => runRemove ps purge (fun i => os (i + 1)))

/-- Everything the outside world answers during one program run. -/
structure World where
  searchO : SearchOracle
  installs : Nat → InstallOracle
  removes : Nat → RemoveOracle
  updateStatus : Except String Bool
  upgradeStatus : Except String Bool

/-- Embedding of main from src/src/main.rs: dispatch the parsed subcommand
to its handler; main returns Ok(()) when the handler does, and the
process exit code is zero exactly on Ok. -/
def runMain (c : Commands) (w : World) : Eff Unit :=
  match c with
  | Commands.search q po ao => search_packages q po ao w.searchO
  | Commands.install pkgs cascade => runInstall pkgs cascade w.installs
  | Commands.remove pkgs purge => runRemove pkgs purge w.removes
  | Commands.update full => update_database full w.updateStatus
  | Commands.upgrade full => upgrade_system full w.updateStatus w.upgradeStatus

/- ======================  Trace observations  ====================== -/

/-- True of the event that spawns the git clone subprocess. -/
def isCloneCall : Event → Bool
  | Event.runStatus c _ _ => c == "git"
  | _ => false

/-- True of the event that spawns the makepkg build subprocess. -/
def isBuildCall : Event → Bool
  | Event.runStatus c _ _ => c == "makepkg"
  | _ => false

/-- True of any Command::output subprocess spawn (in the install handler
these are exactly the pacman -Ss presence checks). -/
def isOutputCall : Event → Bool
  | Event.runOutput _ _ => true
  | _ => false

/-- True of the HTTP GET to the AUR rpc endpoint. -/
def isHttpGet : Event → Bool
  | Event.httpGet _ => true
  | _ => false

/-- True of any table-rendering event (header, data row, printstd). -/
def isTableEv : Event → Bool
  | Event.tableHeader => true
  | Event.tableRow _ => true
  | Event.tablePrint => true
  | _ => false

/-- True of the combined sync-and-upgrade pacman invocation. -/
def isSyuCall : Event → Bool
  | Event.runStatus c args _ => c == "sudo" && args == ["pacman", "-Syu", "--noconfirm"]
  | _ => false

/-- The data rows of the rendered search table, in order. -/
def tableRows (t : List Event) : List (List String) :=
  t.filterMap fun e => match e with
    | Event.tableRow cells => some cells
    | _ => none

/-- The package names the user was prompted to confirm, in order. -/
def promptsOf (t : List Event) : List String :=
  t.filterMap fun e => match e with
    | Event.promptAsk p => some p
    | _ => none

/- ======================  Helper lemmas  ====================== -/

@[simp] theorem forM_emit (l : List α) (g : α → Event) :
    List.forM l (fun a => (⟨[g a], Except.ok ()⟩ : Eff Unit)) = ⟨l.map g, Except.ok ()⟩ := by
  induction l with
  | nil => rfl
  | cons a l ih =>
      show Eff.bind ⟨[g a], Except.ok ()⟩ (fun _ => List.forM l _) = _
      rw [ih]
      rfl

theorem bind_trace_of_ok (x : Eff α) (f : α → Eff β) (a : α) (h : x.result = Except.ok a) :
    Eff.bind x f = ⟨x.trace ++ (f a).trace, (f a).result⟩ := by
  unfold Eff.bind
  rw [h]

@[simp] theorem filter_append_ev (p : Event → Bool) (t1 t2 : List Event) :
    (t1 ++ t2).filter p = t1.filter p ++ t2.filter p := List.filter_append ..

@[simp] theorem tableRows_nil : tableRows [] = [] := rfl

@[simp] theorem tableRows_append (t1 t2 : List Event) :
    tableRows (t1 ++ t2) = tableRows t1 ++ tableRows t2 := by
  simp [tableRows]

@[simp] theorem tableRows_cons (e : Event) (t : List Event) :
    tableRows (e :: t) =
      (match e with | Event.tableRow c => [c] | _ => []) ++ tableRows t := by
  cases e <;> rfl

@[simp] theorem tableRows_take_map (n : Nat) (l : List α) (f : α → List String) :
    tableRows ((l.map (fun a => Event.tableRow (f a))).take n) = (l.map f).take n := by
  rw [← List.map_take, ← List.map_take]
  induction (l.take n) with
  | nil => rfl
  | cons a t ih => simp [ih]

@[simp] theorem tableRows_take_print (n : Nat) (l : List String) :
    tableRows ((l.map Event.printLine).take n) = [] := by
  rw [← List.map_take]
  induction (l.take n) with
  | nil => rfl
  | cons a t ih => simp [ih]

@[simp] theorem promptsOf_nil : promptsOf [] = [] := rfl

@[simp] theorem promptsOf_append (t1 t2 : List Event) :
    promptsOf (t1 ++ t2) = promptsOf t1 ++ promptsOf t2 := by
  simp [promptsOf]

@[simp] theorem promptsOf_cons (e : Event) (t : List Event) :
    promptsOf (e :: t) =
      (match e with | Event.promptAsk p => [p] | _ => []) ++ promptsOf t := by
  cases e <;> rfl

/-- Every elementary world interaction of one install_package call
succeeded in the I/O sense: each subprocess spawned and returned an exit
status (of either sign), and the directory create and delete went
through.  This is exactly the situation the spec distinguishes from
propagated I/O errors. -/
def InstallOracle.allOk (o : InstallOracle) : Prop :=
  okE o.searchOut ∧ okE o.pacmanStatus ∧ okE o.mkCacheDir ∧ okE o.rmTempDir ∧
    okE o.cloneStatus ∧ okE o.buildStatus

theorem install_package_ok (pkg : String) (cascade : Bool) (o : InstallOracle)
    (h : o.allOk) :
    (install_package pkg cascade o).result = Except.ok () ∧
    (install_package pkg cascade o).trace.filter isOutputCall =
      [Event.runOutput "pacman" ["-Ss", pkg]] := by
  obtain ⟨⟨s, hs⟩, ⟨b1, h1⟩, ⟨u1, h2⟩, ⟨u2, h3⟩, ⟨b2, h4⟩, ⟨b3, h5⟩⟩ := h
  unfold install_package
  simp only [bind_eq_bind, emit_def, bind_ok, act_trace, act_result, hs, h1, h2, h3, h4, h5]
  by_cases hne : s = "" <;>
    cases o.cacheDirExists <;> cases o.tempDirExists <;>
    cases b1 <;> cases b2 <;> cases b3 <;> cases cascade <;>
    simp [hne, Eff.bind, isOutputCall]

theorem install_build_failed_mem (pkg : String) (cascade : Bool) (o : InstallOracle)
    (hs : o.searchOut = Except.ok "") (hmk : o.mkCacheDir = Except.ok ())
    (hrm : o.rmTempDir = Except.ok ()) (hc : o.cloneStatus = Except.ok true)
    (hb : o.buildStatus = Except.ok false) :
    Event.printLine ("Failed to install " ++ pkg ++ " from AUR")
      ∈ (install_package pkg cascade o).trace := by
  unfold install_package
  simp only [bind_eq_bind, emit_def, bind_ok, act_trace, act_result, hs, hmk, hrm, hc, hb]
  cases o.cacheDirExists <;> cases o.tempDirExists <;> cases cascade <;> simp [Eff.bind]

theorem remove_package_ok (pkg : String) (purge : Bool) (o : RemoveOracle) (l : String)
    (b : Bool) (hi : o.input = Except.ok l) (hs : o.status = Except.ok b) :
    (remove_package pkg purge o).result = Except.ok () ∧
    promptsOf (remove_package pkg purge o).trace = [pkg] := by
  unfold remove_package
  simp only [bind_eq_bind, emit_def, bind_ok, act_trace, act_result, hi, hs]
  by_cases h : trimLower l = "y" <;> cases purge <;> cases b <;>
    simp [h, Eff.bind]

theorem remove_confirmed_mem (pkg : String) (purge : Bool) (o : RemoveOracle) (l : String)
    (hi : o.input = Except.ok l) (hy : trimLower l = "y") :
    Event.runStatus "sudo"
        ("pacman" :: (if purge then ["-Rns", pkg, "--noconfirm"] else ["-Rs", pkg, "--noconfirm"]))
        none ∈ (remove_package pkg purge o).trace := by
  unfold remove_package
  simp only [bind_eq_bind, emit_def, bind_ok, act_trace, act_result, hi]
  rcases o.status with e | b
  · cases purge <;> simp [hy, Eff.bind]
  · cases purge <;> cases b <;> simp [hy, Eff.bind]

/-- Characterization of the AUR half of the search handler on a positive
resultcount: the rendered data rows are the first 10 results mapped to
their three columns, the header and the found banner are printed, and the
handler returns Ok. -/
theorem search_aur_rows (q s : String) (ao : Bool) (o : SearchOracle) (resp : AurResponse)
    (hp : o.pacmanOut = Except.ok s) (ha : o.aurResp = Except.ok resp)
    (h : 0 < resp.resultcount) :
    tableRows (search_packages q false ao o).trace =
      (resp.results.map
        (fun pkg => [pkg.name, pkg.version, pkg.description.getD "No description"])).take 10 ∧
    Event.tableHeader ∈ (search_packages q false ao o).trace ∧
    Event.printLine ("Found " ++ toString resp.resultcount ++ " packages in AUR:")
      ∈ (search_packages q false ao o).trace ∧
    (search_packages q false ao o).result = Except.ok () := by
  unfold search_packages
  simp only [bind_eq_bind, emit_def, bind_ok, act_trace, act_result, hp, ha, forM_emit]
  by_cases hs : s = ""
  · cases ao <;> simp [hs, h, Eff.bind]
  · cases ao <;> simp [hs, h, Eff.bind]

/-- Second definition for the refinement claim C7, written from the words
of the spec rather than from upgrade_system: one combined
sync-and-upgrade package-manager invocation with the non-interactive flag
under elevated privileges, followed by its status report. -/
def specSyncUpgradeStep (st : Except String Bool) : Eff Unit := do
  let ok ← act (Event.runStatus "sudo" ["pacman", "-Syu", "--noconfirm"] none) st
  if ok then emit (Event.printLine "System upgraded successfully")
  else emit (Event.printLine "Upgrade failed")

/- ======================  Claims  ====================== -/

/-- C1, counterexample to the claim as stated: the removal subprocess is
invoked if and only if the input is exactly y or Y.  The input consisting
of y surrounded by spaces is neither exactly y nor exactly Y, yet
remove_package trims it and invokes the removal subprocess. -/
theorem C1_counterexample :
    " y " ≠ "y" ∧ " y " ≠ "Y" ∧
    (remove_package "vim" false ⟨Except.ok " y ", Except.ok true⟩).trace.filter isRemovalCall =
      [Event.runStatus "sudo" ["pacman", "-Rs", "vim", "--noconfirm"] none] :=
  ⟨by decide, by decide, by decide⟩

/-- C1 amended: for every package name and every confirmation line read
from standard input, the remove operation invokes the removal subprocess
if and only if the input, after trimming surrounding whitespace and
lowercasing, is exactly y; for any other input it aborts with no system
change: the whole trace is the prompt, the stdin read and the Aborted
report, with no removal subprocess invoked, and the handler returns Ok. -/
theorem C1_confirmation_gate (pkg line : String) (purge : Bool) (st : Except String Bool) :
    ((remove_package pkg purge ⟨Except.ok line, st⟩).trace.any isRemovalCall = true ↔
      trimLower line = "y") ∧
    (trimLower line ≠ "y" →
      remove_package pkg purge ⟨Except.ok line, st⟩ =
        ⟨[Event.promptAsk pkg, Event.stdinRead, Event.printLine "Aborted"], Except.ok ()⟩) := by
  constructor
  · unfold remove_package
    simp only [bind_eq_bind, emit_def, bind_ok, act_trace, act_result]
    by_cases h : trimLower line = "y"
    · simp [h, Eff.bind]
      cases st with
      | error e => cases purge <;> simp [isRemovalCall]
      | ok b => cases purge <;> cases b <;> simp [isRemovalCall]
    · simp [h, Eff.bind, isRemovalCall]
  · intro h
    unfold remove_package
    simp [h, Eff.bind]

/-- C1 witness: with the declining input n the gate rejects, no removal
subprocess runs and the handler reports the aborted action. -/
theorem C1_confirmation_gate_witness :
    trimLower "n" ≠ "y" ∧
    remove_package "vim" false ⟨Except.ok "n", Except.ok true⟩ =
      ⟨[Event.promptAsk "vim", Event.stdinRead, Event.printLine "Aborted"], Except.ok ()⟩ :=
  ⟨by decide, (C1_confirmation_gate "vim" "n" false (Except.ok true)).2 (by decide)⟩

/-- C2: whenever the official-repo presence check (pacman -Ss) returns
non-empty standard output, install_package performs no git clone and no
makepkg invocation at all, and installs via the package manager: the
sudo pacman -S --noconfirm spawn is in the trace whenever its status
comes back. -/
theorem C2_official_hit_no_clone_build (pkg : String) (cascade : Bool) (o : InstallOracle)
    (s : String) (hs : o.searchOut = Except.ok s) (hne : s ≠ "") :
    (install_package pkg cascade o).trace.filter isCloneCall = [] ∧
    (install_package pkg cascade o).trace.filter isBuildCall = [] ∧
    (∀ b, o.pacmanStatus = Except.ok b →
      Event.runStatus "sudo" ["pacman", "-S", pkg, "--noconfirm"] none
        ∈ (install_package pkg cascade o).trace) := by
  unfold install_package
  simp only [bind_eq_bind, emit_def, bind_ok, act_trace, act_result, hs]
  refine ⟨?_, ?_, ?_⟩
  · cases o.pacmanStatus with
    | error e => simp [hne, Eff.bind, isCloneCall]
    | ok b => cases b <;> simp [hne, Eff.bind, isCloneCall]
  · cases o.pacmanStatus with
    | error e => simp [hne, Eff.bind, isBuildCall]
    | ok b => cases b <;> simp [hne, Eff.bind, isBuildCall]
  · intro b hb
    rw [hb]
    cases b <;> simp [hne, Eff.bind]

/-- C2 witness: a concrete oracle whose presence check matches. -/
theorem C2_official_hit_no_clone_build_witness :
    (install_package "vim" false
      ⟨Except.ok "extra/vim 9.1", Except.ok true, some "/home/u", true, Except.ok (),
        false, Except.ok (), Except.ok true, Except.ok true⟩).trace.filter isCloneCall = [] ∧
    Event.runStatus "sudo" ["pacman", "-S", "vim", "--noconfirm"] none
      ∈ (install_package "vim" false
          ⟨Except.ok "extra/vim 9.1", Except.ok true, some "/home/u", true, Except.ok (),
            false, Except.ok (), Except.ok true, Except.ok true⟩).trace :=
  ⟨(C2_official_hit_no_clone_build "vim" false _ "extra/vim 9.1" rfl (by decide)).1,
   (C2_official_hit_no_clone_build "vim" false _ "extra/vim 9.1" rfl (by decide)).2.2 true rfl⟩

/-- C3: passing both filter flags is accepted, not rejected as
contradictory: dispatching search with pacman_only and aur_only both set
runs to completion with Ok; and whenever pacman_only is set the AUR side
is skipped entirely, no HTTP request and no table-rendering event,
regardless of aur_only. -/
theorem C3_flags_not_contradictory (q : String) (ao : Bool) (w w2 : World) :
    (runMain (Commands.search q true true) w).result = Except.ok () ∧
    (runMain (Commands.search q true ao) w2).trace.filter
      (fun e => isHttpGet e || isTableEv e) = [] := by
  constructor
  · simp [runMain, search_packages, Eff.bind]
  · show (search_packages q true ao w2.searchO).trace.filter _ = []
    unfold search_packages
    simp only [bind_eq_bind, emit_def, bind_ok, act_trace, act_result]
    rcases hw : w2.searchO.pacmanOut with e | s
    · cases ao <;> simp [Eff.bind, isHttpGet, isTableEv, hw]
    · by_cases hs : s = "" <;> cases ao <;>
        simp [Eff.bind, isHttpGet, isTableEv, hw, hs]
      all_goals
        intro a ha
        obtain ⟨s2, hs2, rfl⟩ := List.mem_map.mp (List.take_subset _ _ ha)
        simp

/-- C4: when every subprocess of an install run spawns and returns an
exit status, of either sign, and the directory operations go through,
the whole install loop returns Ok, so the process exit code stays
success; every requested package is still processed in order, witnessed
by the presence-check spawns matching the package list one to one; and a
failing build is reported by a printed message in the trace, not by an
error. -/
theorem C4_subprocess_failure_nonfatal (pkgs : List String) (cascade : Bool)
    (os : Nat → InstallOracle) (h : ∀ i, (os i).allOk) :
    (runInstall pkgs cascade os).result = Except.ok () ∧
    (runInstall pkgs cascade os).trace.filter isOutputCall =
      pkgs.map (fun p => Event.runOutput "pacman" ["-Ss", p]) ∧
    (∀ i p, pkgs[i]? = some p → (os i).searchOut = Except.ok "" →
      (os i).cloneStatus = Except.ok true → (os i).buildStatus = Except.ok false →
      Event.printLine ("Failed to install " ++ p ++ " from AUR")
        ∈ (runInstall pkgs cascade os).trace) := by
  induction pkgs generalizing os with
  | nil => exact ⟨rfl, rfl, fun i p hp => by simp at hp⟩
  | cons p ps ih =>
      have hp := install_package_ok p cascade (os 0) (h 0)
      have ht := ih (fun i => os (i + 1)) (fun i => h (i + 1))
      rw [runInstall, bind_trace_of_ok _ _ () hp.1]
      refine ⟨ht.1, ?_, ?_⟩
      · show ((install_package p cascade (os 0)).trace ++ _).filter _ = _
        rw [filter_append_ev, hp.2, ht.2.1]
        rfl
      · intro i pk hget hsearch hclone hbuild
        obtain ⟨-, -, ⟨u1, hmk⟩, ⟨u2, hrm⟩, -, -⟩ := h 0
        cases i with
        | zero =>
            simp at hget
            subst hget
            exact List.mem_append_left _
              (install_build_failed_mem _ cascade (os 0) hsearch hmk hrm hclone hbuild)
        | succ n =>
            simp at hget
            exact List.mem_append_right _ (ht.2.2 n pk hget hsearch hclone hbuild)

/-- C4 witness: two packages, both falling back to the AUR with a failing
build; the loop still visits both and returns Ok. -/
theorem C4_subprocess_failure_nonfatal_witness :
    (runInstall ["a", "b"] false
      (fun _ => ⟨Except.ok "", Except.ok true, none, false, Except.ok (),
        false, Except.ok (), Except.ok true, Except.ok false⟩)).result = Except.ok () ∧
    (runInstall ["a", "b"] false
      (fun _ => ⟨Except.ok "", Except.ok true, none, false, Except.ok (),
        false, Except.ok (), Except.ok true, Except.ok false⟩)).trace.filter isOutputCall =
      [Event.runOutput "pacman" ["-Ss", "a"], Event.runOutput "pacman" ["-Ss", "b"]] ∧
    Event.printLine ("Failed to install " ++ "a" ++ " from AUR")
      ∈ (runInstall ["a", "b"] false
          (fun _ => ⟨Except.ok "", Except.ok true, none, false, Except.ok (),
            false, Except.ok (), Except.ok true, Except.ok false⟩)).trace := by
  have h := C4_subprocess_failure_nonfatal ["a", "b"] false
    (fun _ => ⟨Except.ok "", Except.ok true, none, false, Except.ok (),
      false, Except.ok (), Except.ok true, Except.ok false⟩)
    (fun i => ⟨⟨"", rfl⟩, ⟨true, rfl⟩, ⟨(), rfl⟩, ⟨(), rfl⟩, ⟨true, rfl⟩, ⟨false, rfl⟩⟩)
  exact ⟨h.1, h.2.1, h.2.2 0 "a" rfl rfl rfl rfl⟩

/-- C5: when the presence check comes back empty and the per-package
workspace directory already exists, the only delete and clone effects in
the install trace are the recursive removal of that exact workspace
followed by the git clone into it: the stale directory is deleted before
the clone subprocess is invoked. -/
theorem C5_stale_workspace_removed_before_clone (pkg : String) (cascade : Bool)
    (o : InstallOracle) (b : Bool)
    (hs : o.searchOut = Except.ok "") (ht : o.tempDirExists = true)
    (hmk : o.mkCacheDir = Except.ok ()) (hrm : o.rmTempDir = Except.ok ())
    (hc : o.cloneStatus = Except.ok b) :
    (install_package pkg cascade o).trace.filter
        (fun e => isCloneCall e || (e == Event.removeDir (tempDirOf o.home pkg))) =
      [Event.removeDir (tempDirOf o.home pkg),
       Event.runStatus "git"
         ["clone", "https://aur.archlinux.org/" ++ pkg ++ ".git", tempDirOf o.home pkg] none] := by
  obtain ⟨so, ps, home, ce, mk, te, rm, cs, bs⟩ := o
  simp only at hs ht hmk hrm hc
  subst hs ht hmk hrm hc
  unfold install_package
  cases ce <;> cases cascade <;> cases b <;> rcases bs with e | b3 <;> try cases b3
  all_goals simp [Eff.bind, isCloneCall]

/-- C5 witness: a concrete stale workspace for package foo under
/home/u/.cache/raur is deleted and then cloned into. -/
theorem C5_stale_workspace_removed_before_clone_witness :
    (install_package "foo" false
      ⟨Except.ok "", Except.ok true, some "/home/u", true, Except.ok (),
        true, Except.ok (), Except.ok true, Except.ok true⟩).trace.filter
        (fun e => isCloneCall e || (e == Event.removeDir (tempDirOf (some "/home/u") "foo"))) =
      [Event.removeDir (tempDirOf (some "/home/u") "foo"),
       Event.runStatus "git"
         ["clone", "https://aur.archlinux.org/" ++ "foo" ++ ".git",
          tempDirOf (some "/home/u") "foo"] none] :=
  C5_stale_workspace_removed_before_clone "foo" false
    ⟨Except.ok "", Except.ok true, some "/home/u", true, Except.ok (),
      true, Except.ok (), Except.ok true, Except.ok true⟩ true rfl rfl rfl rfl rfl

/-- C6, counterexample to the claim as stated: a response whose
resultcount field is 3 but whose results array is empty renders zero data
rows, not 3: the row count follows the results array, not the
resultcount field. -/
theorem C6_counterexample :
    (AurResponse.mk 3 []).resultcount = 3 ∧
    tableRows (search_packages "q" false true
        ⟨Except.ok "", Except.ok (AurResponse.mk 3 [])⟩).trace = [] ∧
    (0 : Nat) ≠ 3 :=
  ⟨rfl, by decide, by decide⟩

/-- C6 amended: for every AUR response whose resultcount is 3 and whose
results array has exactly 3 entries, the search operation renders exactly
3 data rows, each row being the package name, version, and its
Description with the fixed placeholder string substituted when the
Description is absent. -/
theorem C6_three_rows (q s : String) (ao : Bool) (o : SearchOracle) (resp : AurResponse)
    (hp : o.pacmanOut = Except.ok s) (ha : o.aurResp = Except.ok resp)
    (hc : resp.resultcount = 3) (hl : resp.results.length = 3) :
    tableRows (search_packages q false ao o).trace =
      resp.results.map
        (fun pkg => [pkg.name, pkg.version, pkg.description.getD "No description"]) ∧
    (tableRows (search_packages q false ao o).trace).length = 3 := by
  have h0 : 0 < resp.resultcount := by rw [hc]; norm_num
  have hr := (search_aur_rows q s ao o resp hp ha h0).1
  have hle : (resp.results.map
      (fun pkg => [pkg.name, pkg.version, pkg.description.getD "No description"])).length ≤ 10 := by
    simp [hl]
  rw [List.take_of_length_le hle] at hr
  refine ⟨hr, ?_⟩
  rw [hr]
  simp [hl]

/-- C6 witness: three concrete results, the middle one with no
Description, render as three rows with the placeholder in the middle
row. -/
theorem C6_three_rows_witness :
    tableRows (search_packages "q" false true
        ⟨Except.ok "",
         Except.ok (AurResponse.mk 3
           [AurPackage.mk "a" "1" (some "first"), AurPackage.mk "b" "2" none,
            AurPackage.mk "c" "3" (some "third")])⟩).trace =
      [["a", "1", "first"], ["b", "2", "No description"], ["c", "3", "third"]] ∧
    (tableRows (search_packages "q" false true
        ⟨Except.ok "",
         Except.ok (AurResponse.mk 3
           [AurPackage.mk "a" "1" (some "first"), AurPackage.mk "b" "2" none,
            AurPackage.mk "c" "3" (some "third")])⟩).trace).length = 3 :=
  C6_three_rows "q" "" true
    ⟨Except.ok "",
     Except.ok (AurResponse.mk 3
       [AurPackage.mk "a" "1" (some "first"), AurPackage.mk "b" "2" none,
        AurPackage.mk "c" "3" (some "third")])⟩
    (AurResponse.mk 3
       [AurPackage.mk "a" "1" (some "first"), AurPackage.mk "b" "2" none,
        AurPackage.mk "c" "3" (some "third")]) rfl rfl rfl rfl

/-- C7: for every value of the full flag, upgrade_system is exactly the
monadic composition of update_database with the same flag (which issues
the forced double sync -Syy when full is set and the normal sync -Sy
otherwise, as its first effect) followed by the spec-side single combined
sync-and-upgrade invocation; and when the database sync returns a
status, exactly one combined sync-and-upgrade spawn appears in the
trace. -/
theorem C7_upgrade_refines_update_then_syu (full : Bool) (st1 st2 : Except String Bool) :
    upgrade_system full st1 st2 =
      Eff.bind (update_database full st1) (fun _ => specSyncUpgradeStep st2) ∧
    (update_database full st1).trace.head? =
      some (Event.runStatus "sudo" ("pacman" :: (if full then ["-Syy"] else ["-Sy"])) none) ∧
    (∀ b, st1 = Except.ok b →
      ((upgrade_system full st1 st2).trace.filter isSyuCall).length = 1) := by
  refine ⟨rfl, ?_, ?_⟩
  · unfold update_database
    rcases st1 with e | b <;> cases full <;> simp [Eff.bind]
  · intro b hb
    subst hb
    unfold upgrade_system update_database
    rcases st2 with e | b2 <;> cases full <;> cases b <;> try cases b2
    all_goals simp [Eff.bind, isSyuCall]

/-- C7 witness: with a successful sync status the upgrade trace contains
exactly one combined sync-and-upgrade invocation. -/
theorem C7_upgrade_refines_update_then_syu_witness :
    upgrade_system true (Except.ok true) (Except.ok true) =
      Eff.bind (update_database true (Except.ok true)) (fun _ => specSyncUpgradeStep (Except.ok true)) ∧
    ((upgrade_system true (Except.ok true) (Except.ok true)).trace.filter isSyuCall).length = 1 :=
  ⟨(C7_upgrade_refines_update_then_syu true (Except.ok true) (Except.ok true)).1,
   (C7_upgrade_refines_update_then_syu true (Except.ok true) (Except.ok true)).2.2 true rfl⟩

/-- C8: an install or remove invocation with an empty package list
performs no effect at all, no subprocess, no HTTP request, no prompt, no
filesystem modification, and main returns Ok, so the process exits with
success; this holds whatever the world would have answered. -/
theorem C8_empty_list_noop (w : World) (cascade purge : Bool) :
    runMain (Commands.install [] cascade) w = ⟨[], Except.ok ()⟩ ∧
    runMain (Commands.remove [] purge) w = ⟨[], Except.ok ()⟩ :=
  ⟨rfl, rfl⟩

/-- C9: on any AUR response with positive resultcount the number of
rendered data rows is the length of the results array capped at 10,
independent of the resultcount value; in particular with an empty
results array the found banner and the table header still appear while
no data row does. -/
theorem C9_rows_follow_results_array (q s : String) (ao : Bool) (o : SearchOracle)
    (resp : AurResponse) (hp : o.pacmanOut = Except.ok s) (ha : o.aurResp = Except.ok resp)
    (h : 0 < resp.resultcount) :
    (tableRows (search_packages q false ao o).trace).length = min resp.results.length 10 ∧
    Event.printLine ("Found " ++ toString resp.resultcount ++ " packages in AUR:")
      ∈ (search_packages q false ao o).trace ∧
    Event.tableHeader ∈ (search_packages q false ao o).trace ∧
    (resp.results = [] → tableRows (search_packages q false ao o).trace = []) := by
  obtain ⟨hr, hhead, hbanner, -⟩ := search_aur_rows q s ao o resp hp ha h
  refine ⟨?_, hbanner, hhead, ?_⟩
  · rw [hr]
    simp [Nat.min_comm]
  · intro he
    rw [hr, he]
    rfl

/-- C9 witness: resultcount 7 with a single-entry results array renders
exactly one row, and resultcount 5 with an empty array renders the banner
and header but no rows. -/
theorem C9_rows_follow_results_array_witness :
    (tableRows (search_packages "q" false true
        ⟨Except.ok "", Except.ok (AurResponse.mk 7 [AurPackage.mk "a" "1" none])⟩).trace).length =
      min 1 10 ∧
    Event.tableHeader ∈ (search_packages "q" false true
        ⟨Except.ok "", Except.ok (AurResponse.mk 5 [])⟩).trace ∧
    tableRows (search_packages "q" false true
        ⟨Except.ok "", Except.ok (AurResponse.mk 5 [])⟩).trace = [] :=
  ⟨(C9_rows_follow_results_array "q" "" true
      ⟨Except.ok "", Except.ok (AurResponse.mk 7 [AurPackage.mk "a" "1" none])⟩
      (AurResponse.mk 7 [AurPackage.mk "a" "1" none]) rfl rfl (by norm_num)).1,
   (C9_rows_follow_results_array "q" "" true
      ⟨Except.ok "", Except.ok (AurResponse.mk 5 [])⟩
      (AurResponse.mk 5 []) rfl rfl (by norm_num)).2.2.1,
   (C9_rows_follow_results_array "q" "" true
      ⟨Except.ok "", Except.ok (AurResponse.mk 5 [])⟩
      (AurResponse.mk 5 []) rfl rfl (by norm_num)).2.2.2 rfl⟩

/-- C10: for a remove invocation over several names in which every stdin
read and removal subprocess spawn succeeds in the I/O sense, the
confirmation prompt is issued once per name in listed order whatever the
answers are, so declining one name does not prevent the prompts for the
later names; the loop returns Ok; and every name whose answer confirms
gets its removal subprocess invoked. -/
theorem C10_prompt_each_name_in_order (pkgs : List String) (purge : Bool)
    (os : Nat → RemoveOracle) (h : ∀ i, okE (os i).input ∧ okE (os i).status) :
    (runRemove pkgs purge os).result = Except.ok () ∧
    promptsOf (runRemove pkgs purge os).trace = pkgs ∧
    (∀ i p l, pkgs[i]? = some p → (os i).input = Except.ok l → trimLower l = "y" →
      Event.runStatus "sudo"
        ("pacman" :: (if purge then ["-Rns", p, "--noconfirm"] else ["-Rs", p, "--noconfirm"]))
        none ∈ (runRemove pkgs purge os).trace) := by
  induction pkgs generalizing os with
  | nil => exact ⟨rfl, rfl, fun i p l hp => by simp at hp⟩
  | cons p ps ih =>
      obtain ⟨⟨l0, hl0⟩, ⟨b0, hb0⟩⟩ := h 0
      have hp := remove_package_ok p purge (os 0) l0 b0 hl0 hb0
      have ht := ih (fun i => os (i + 1)) (fun i => h (i + 1))
      rw [runRemove, bind_trace_of_ok _ _ () hp.1]
      refine ⟨ht.1, ?_, ?_⟩
      · show promptsOf (_ ++ _) = _
        rw [promptsOf_append, hp.2, ht.2.1]
        rfl
      · intro i pk l hget hin hy
        cases i with
        | zero =>
            simp at hget
            subst hget
            rw [hl0] at hin
            injection hin with hin2
            subst hin2
            exact List.mem_append_left _ (remove_confirmed_mem p purge (os 0) _ hl0 hy)
        | succ n =>
            simp at hget
            exact List.mem_append_right _ (ht.2.2 n pk l hget hin hy)

/-- C10 witness: two names where the first answer declines and the second
confirms: both prompts appear in order and the second removal runs. -/
theorem C10_prompt_each_name_in_order_witness :
    promptsOf (runRemove ["a", "b"] false
      (fun i => match i with
        | 0 => ⟨Except.ok "n", Except.ok true⟩
        | _ => ⟨Except.ok "y", Except.ok true⟩)).trace = ["a", "b"] ∧
    Event.runStatus "sudo" ("pacman" :: ["-Rs", "b", "--noconfirm"]) none
      ∈ (runRemove ["a", "b"] false
          (fun i => match i with
            | 0 => ⟨Except.ok "n", Except.ok true⟩
            | _ => ⟨Except.ok "y", Except.ok true⟩)).trace := by
  have h := C10_prompt_each_name_in_order ["a", "b"] false
    (fun i => match i with
      | 0 => ⟨Except.ok "n", Except.ok true⟩
      | _ => ⟨Except.ok "y", Except.ok true⟩)
    (fun i => by cases i <;> exact ⟨⟨_, rfl⟩, ⟨_, rfl⟩⟩)
  exact ⟨h.2.1, h.2.2 1 "b" "y" rfl rfl rfl⟩

end Raur
